import Mathlib

/-!
Verification of the voxel-terrain core of the ROVER engine
(`src/render/terrain/block.rs`, `chunk.rs`, `noise.rs`).

Modelling conventions:
* The fixed `[[[Block; 16]; 32]; 16]` array is represented as a total
  function `Nat → Nat → Nat → Block`; the code only reads cells with
  `x, z < 16`, `y < 32` (every neighbour access is guarded by the same
  bound checks as in the source), so any total extension represents the
  array faithfully on its domain.
* `f32`/`f64` values (vertex positions, the debug colour, the noise
  height signal) are modelled over `ℚ`: no claim below depends on
  floating-point rounding, only on ordering and on equality of outputs.
* `u16` index arithmetic (`BASE_INDICES[f][i] + idx_offset as u16`) is
  modelled as `(b + off % 2^16) % 2^16` on `Nat`.
* The external `noise` crate's `OpenSimplex` is modelled by its stored
  seed together with an arbitrary sample function
  `osSample : seed → x → z → ℚ` passed as a parameter; the crate's
  `Seedable::set_seed` takes the (`Copy`) receiver by value and returns
  the reseeded generator, which `from_seed` in the source discards.
-/

namespace Rover

def CHUNK_WIDTH : Nat := 16

def CHUNK_HEIGHT : Nat := 32

def HALF_BLOCK_SIZE : ℚ := 1/4

inductive BlockType where
  | AIR
  | STONE
deriving DecidableEq, Repr

structure Block where
  is_active : Bool
  block_type : BlockType
deriving DecidableEq, Repr

def Block.new : Block :=
  { is_active := false, block_type := BlockType.STONE }

/-- The sample function of the external `OpenSimplex` noise: seed, x, z ↦ value. -/
abbrev OSampleFn := Nat → ℚ → ℚ → ℚ

structure OpenSimplex where
  seed : Nat
deriving DecidableEq, Repr

def OpenSimplex.DEFAULT_SEED : Nat := 0

def OpenSimplex.new : OpenSimplex :=
  { seed := OpenSimplex.DEFAULT_SEED }

def OpenSimplex.set_seed (g : OpenSimplex) (s : Nat) : OpenSimplex :=
  { seed := s }

structure NoiseGenerator where
  generator : OpenSimplex
deriving DecidableEq, Repr

def NoiseGenerator.from_seed (seed : Nat) : NoiseGenerator :=
  let generator := OpenSimplex.new
  let _ := generator.set_seed seed
  { generator := generator }

def NoiseGenerator.get (osSample : OSampleFn) (ng : NoiseGenerator) (x z : ℚ) : ℚ :=
  osSample ng.generator.seed x z

structure ColorVertex where
  position : ℚ × ℚ × ℚ
  color : ℚ × ℚ × ℚ
deriving DecidableEq, Repr

/-- The block grid of a chunk, as a total function standing for the
`[[[Block; CHUNK_WIDTH]; CHUNK_HEIGHT]; CHUNK_WIDTH]` array, read as
`g x y z` for `blocks[x][y][z]`. -/
def Grid := Nat → Nat → Nat → Block

structure Chunk where
  width : Nat
  height : Nat
  blocks : Grid

def Chunk.new (osSample : OSampleFn) : Chunk :=
  let noise_gen := NoiseGenerator.from_seed 1337
  { width := CHUNK_WIDTH
    height := CHUNK_HEIGHT
    blocks := fun x y z =>
      let noise_value : ℚ :=
        noise_gen.get osSample ((x : ℚ) / 16) ((z : ℚ) / 16) * (CHUNK_HEIGHT : ℚ)
      { is_active := Block.new.is_active
        block_type := if (y : ℚ) > noise_value then BlockType.AIR else BlockType.STONE } }

inductive Faces where
  | FRONT
  | BACK
  | TOP
  | BOTTOM
  | LEFT
  | RIGHT
deriving DecidableEq, Repr

def BASE_INDICES : Faces → List Nat
  | Faces.FRONT => [0, 1, 3, 3, 1, 2]
  | Faces.BACK => [4, 5, 7, 7, 5, 6]
  | Faces.TOP => [3, 2, 6, 6, 2, 7]
  | Faces.BOTTOM => [5, 4, 0, 0, 4, 1]
  | Faces.LEFT => [5, 0, 6, 6, 0, 3]
  | Faces.RIGHT => [1, 4, 2, 2, 4, 7]

def U16_MOD : Nat := 65536

def add_face_indices (face : Faces) (idx_offset : Nat) : List Nat :=
  (BASE_INDICES face).map (fun b => (b + idx_offset % U16_MOD) % U16_MOD)

def backVisible (g : Grid) (x y z : Nat) : Bool :=
  decide (z = CHUNK_WIDTH - 1) ||
    (decide (z < CHUNK_WIDTH - 1) && decide ((g x y (z + 1)).block_type = BlockType.AIR))

def frontVisible (g : Grid) (x y z : Nat) : Bool :=
  decide (z = 0) ||
    (decide (0 < z) && decide ((g x y (z - 1)).block_type = BlockType.AIR))

def rightVisible (g : Grid) (x y z : Nat) : Bool :=
  decide (x = CHUNK_WIDTH - 1) ||
    (decide (x < CHUNK_WIDTH - 1) && decide ((g (x + 1) y z).block_type = BlockType.AIR))

def leftVisible (g : Grid) (x y z : Nat) : Bool :=
  decide (x = 0) ||
    (decide (0 < x) && decide ((g (x - 1) y z).block_type = BlockType.AIR))

def topVisible (g : Grid) (x y z : Nat) : Bool :=
  decide (y = CHUNK_HEIGHT - 1) ||
    (decide (y < CHUNK_HEIGHT - 1) && decide ((g x (y + 1) z).block_type = BlockType.AIR))

def bottomVisible (g : Grid) (x y z : Nat) : Bool :=
  decide (y = 0) ||
    (decide (0 < y) && decide ((g x (y - 1) z).block_type = BlockType.AIR))

/-- The 8 corner vertices of the cube at `(x, y, z)` exactly as listed in
`create_cube` (front group coloured `[c,0,0]`, back group `[0,0,c]`). -/
def cubeVerts (idx_offset x y z : Nat) : List ColorVertex :=
  let color : ℚ := (idx_offset : ℚ) / ((CHUNK_HEIGHT * CHUNK_WIDTH * 36 * 8 : Nat) : ℚ)
  let px : ℚ := (x : ℚ) * 2 * HALF_BLOCK_SIZE
  let py : ℚ := (y : ℚ) * 2 * HALF_BLOCK_SIZE
  let pz : ℚ := (z : ℚ) * 2 * HALF_BLOCK_SIZE
  [ { position := (px - HALF_BLOCK_SIZE, py - HALF_BLOCK_SIZE, pz - HALF_BLOCK_SIZE), color := (color, 0, 0) },
    { position := (px + HALF_BLOCK_SIZE, py - HALF_BLOCK_SIZE, pz - HALF_BLOCK_SIZE), color := (color, 0, 0) },
    { position := (px + HALF_BLOCK_SIZE, py + HALF_BLOCK_SIZE, pz - HALF_BLOCK_SIZE), color := (color, 0, 0) },
    { position := (px - HALF_BLOCK_SIZE, py + HALF_BLOCK_SIZE, pz - HALF_BLOCK_SIZE), color := (color, 0, 0) },
    { position := (px + HALF_BLOCK_SIZE, py - HALF_BLOCK_SIZE, pz + HALF_BLOCK_SIZE), color := (0, 0, color) },
    { position := (px - HALF_BLOCK_SIZE, py - HALF_BLOCK_SIZE, pz + HALF_BLOCK_SIZE), color := (0, 0, color) },
    { position := (px - HALF_BLOCK_SIZE, py + HALF_BLOCK_SIZE, pz + HALF_BLOCK_SIZE), color := (0, 0, color) },
    { position := (px + HALF_BLOCK_SIZE, py + HALF_BLOCK_SIZE, pz + HALF_BLOCK_SIZE), color := (0, 0, color) } ]

def create_cube (g : Grid) (idx_offset x y z : Nat) : List ColorVertex × List Nat :=
  let v_cube := cubeVerts idx_offset x y z
  let i_cube : List Nat :=
    (if backVisible g x y z then add_face_indices Faces.BACK idx_offset else []) ++
    (if frontVisible g x y z then add_face_indices Faces.FRONT idx_offset else []) ++
    (if rightVisible g x y z then add_face_indices Faces.RIGHT idx_offset else []) ++
    (if leftVisible g x y z then add_face_indices Faces.LEFT idx_offset else []) ++
    (if topVisible g x y z then add_face_indices Faces.TOP idx_offset else []) ++
    (if bottomVisible g x y z then add_face_indices Faces.BOTTOM idx_offset else [])
  if i_cube.length = 0 then ([], []) else (v_cube, i_cube)

/-- The traversal order of `create_mesh`: `y` outer, then `x`, then `z`. -/
def chunkCoords : List (Nat × Nat × Nat) :=
  (List.range CHUNK_HEIGHT).flatMap (fun y =>
    (List.range CHUNK_WIDTH).flatMap (fun x =>
      (List.range CHUNK_WIDTH).map (fun z => (x, y, z))))

/-- One iteration of the triple loop body of `create_mesh`. -/
def meshStep (g : Grid) (acc : List ColorVertex × List Nat) (c : Nat × Nat × Nat) :
    List ColorVertex × List Nat :=
  if (g c.1 c.2.1 c.2.2).block_type ≠ BlockType.AIR then
    let vi := create_cube g acc.1.length c.1 c.2.1 c.2.2
    (acc.1 ++ vi.1, acc.2 ++ vi.2)
  else acc

def create_mesh (g : Grid) : List ColorVertex × List Nat :=
  chunkCoords.foldl (meshStep g) ([], [])

/-- The order in which `create_cube` tests the six faces. -/
def dirOrder : List Faces :=
  [Faces.BACK, Faces.FRONT, Faces.RIGHT, Faces.LEFT, Faces.TOP, Faces.BOTTOM]

def visibleDir (g : Grid) (x y z : Nat) : Faces → Bool
  | Faces.BACK => backVisible g x y z
  | Faces.FRONT => frontVisible g x y z
  | Faces.RIGHT => rightVisible g x y z
  | Faces.LEFT => leftVisible g x y z
  | Faces.TOP => topVisible g x y z
  | Faces.BOTTOM => bottomVisible g x y z

/-- Number of visible faces of the block at `(x, y, z)`. -/
def numFaces (g : Grid) (x y z : Nat) : Nat :=
  (dirOrder.filter (visibleDir g x y z)).length

/-- The index list a block emits: one 6-index group per visible face, in
the face order of `create_cube`, each offset by `idx_offset`. -/
def specFaceList (g : Grid) (x y z idx_offset : Nat) : List Nat :=
  (dirOrder.filter (visibleDir g x y z)).flatMap (fun d => add_face_indices d idx_offset)

/-- The grid coordinate of the neighbour of `(x, y, z)` in direction `d`,
or `none` when that neighbour falls outside the chunk bounds. -/
def specNeighbor (x y z : Nat) : Faces → Option (Nat × Nat × Nat)
  | Faces.BACK => if z + 1 < CHUNK_WIDTH then some (x, y, z + 1) else none
  | Faces.FRONT => if z = 0 then none else some (x, y, z - 1)
  | Faces.RIGHT => if x + 1 < CHUNK_WIDTH then some (x + 1, y, z) else none
  | Faces.LEFT => if x = 0 then none else some (x - 1, y, z)
  | Faces.TOP => if y + 1 < CHUNK_HEIGHT then some (x, y + 1, z) else none
  | Faces.BOTTOM => if y = 0 then none else some (x, y - 1, z)

/-- Modelled from the spec's face-visibility rule: a face is visible iff
the neighbouring cell is absent (chunk boundary) or is Air. -/
def specFaceVisible (g : Grid) (x y z : Nat) (d : Faces) : Prop :=
  match specNeighbor x y z d with
  | none => True
  | some n => (g n.1 n.2.1 n.2.2).block_type = BlockType.AIR

/-- Faces emitted by the block at coordinate `c` (0 for an Air cell). -/
def blockFaces (g : Grid) (c : Nat × Nat × Nat) : Nat :=
  if (g c.1 c.2.1 c.2.2).block_type ≠ BlockType.AIR then numFaces g c.1 c.2.1 c.2.2 else 0

/-- Total number of faces emitted over the whole chunk traversal. -/
def totalFaces (g : Grid) : Nat :=
  (chunkCoords.map (blockFaces g)).sum

lemma BASE_INDICES_length (d : Faces) : (BASE_INDICES d).length = 6 := by
  cases d <;> rfl

lemma BASE_INDICES_le (d : Faces) : ∀ b ∈ BASE_INDICES d, b ≤ 7 := by
  cases d <;> decide

lemma add_face_indices_length (d : Faces) (off : Nat) :
    (add_face_indices d off).length = 6 := by
  simp [add_face_indices, BASE_INDICES_length]

lemma add_face_indices_ne_nil (d : Faces) (off : Nat) :
    add_face_indices d off ≠ [] := by
  intro h
  have h6 := add_face_indices_length d off
  rw [h] at h6
  simp at h6

lemma add_face_indices_of_no_wrap (d : Faces) (off : Nat) (hoff : off + 8 ≤ U16_MOD) :
    add_face_indices d off = (BASE_INDICES d).map (fun b => b + off) := by
  have hm : off % U16_MOD = off := Nat.mod_eq_of_lt (by simp [U16_MOD] at hoff ⊢; omega)
  unfold add_face_indices
  rw [hm]
  refine List.map_congr_left (fun b hb => ?_)
  have hb7 : b ≤ 7 := BASE_INDICES_le d b hb
  have : b + off < U16_MOD := by simp [U16_MOD] at hoff ⊢; omega
  exact Nat.mod_eq_of_lt this

lemma mem_add_face_indices_lt (d : Faces) (off i : Nat) (hoff : off + 8 ≤ U16_MOD)
    (hi : i ∈ add_face_indices d off) : i < off + 8 := by
  rw [add_face_indices_of_no_wrap d off hoff] at hi
  rcases List.mem_map.mp hi with ⟨b, hb, rfl⟩
  have hb7 : b ≤ 7 := BASE_INDICES_le d b hb
  omega

lemma cubeVerts_length (off x y z : Nat) : (cubeVerts off x y z).length = 8 := rfl

/-- Structural form of `create_cube`: the vertex component is the fixed
8-vertex block (or nothing when no face is visible), the index component
is one offset 6-index group per visible face in the order of the source. -/
lemma create_cube_eq (g : Grid) (off x y z : Nat) :
    create_cube g off x y z =
      (if numFaces g x y z = 0 then [] else cubeVerts off x y z,
        specFaceList g x y z off) := by
  cases h1 : backVisible g x y z <;> cases h2 : frontVisible g x y z <;>
    cases h3 : rightVisible g x y z <;> cases h4 : leftVisible g x y z <;>
      cases h5 : topVisible g x y z <;> cases h6 : bottomVisible g x y z <;>
        simp [create_cube, specFaceList, numFaces, dirOrder, visibleDir,
          h1, h2, h3, h4, h5, h6, add_face_indices_ne_nil, add_face_indices_length]

lemma chunkCoords_length : chunkCoords.length = 8192 := by
  simp [chunkCoords, List.length_flatMap, Function.comp_def, List.length_map,
    List.length_range, List.map_const', List.sum_replicate, smul_eq_mul,
    CHUNK_WIDTH, CHUNK_HEIGHT]

lemma mem_chunkCoords {c : Nat × Nat × Nat} (hc : c ∈ chunkCoords) :
    c.1 < CHUNK_WIDTH ∧ c.2.1 < CHUNK_HEIGHT ∧ c.2.2 < CHUNK_WIDTH := by
  simp only [chunkCoords, List.mem_flatMap, List.mem_map, List.mem_range] at hc
  rcases hc with ⟨y, hy, x, hx, z, hz, rfl⟩
  exact ⟨hx, hy, hz⟩

/-- C10: `NoiseGenerator::from_seed` discards the generator returned by
`set_seed`, so the stored generator keeps the library's default seed and
the sampled values do not depend on the seed argument at all. -/
theorem from_seed_ignores_seed (osSample : OSampleFn) (s1 s2 : Nat) (x z : ℚ) :
    (NoiseGenerator.from_seed s1).generator = OpenSimplex.new ∧
      (NoiseGenerator.from_seed s1).get osSample x z =
        (NoiseGenerator.from_seed s2).get osSample x z :=
  ⟨rfl, rfl⟩

/-- C9: generation and meshing are deterministic: two chunks produced by
`Chunk::new` from the same noise sample function have bit-identical block
grids, and `create_mesh` on them yields identical vertex and index
sequences. -/
theorem generation_and_meshing_deterministic (osSample : OSampleFn) (c1 c2 : Chunk)
    (h1 : c1 = Chunk.new osSample) (h2 : c2 = Chunk.new osSample) :
    c1.blocks = c2.blocks ∧ create_mesh c1.blocks = create_mesh c2.blocks := by
  subst h1; subst h2; exact ⟨rfl, rfl⟩

/-- A concrete sample function, constantly 1 (height signal 32). -/
def constSample : OSampleFn := fun _ _ _ => 1

theorem generation_and_meshing_deterministic_witness :
    (Chunk.new constSample).blocks = (Chunk.new constSample).blocks ∧
      create_mesh (Chunk.new constSample).blocks =
        create_mesh (Chunk.new constSample).blocks :=
  generation_and_meshing_deterministic constSample _ _ rfl rfl

/-- C3: the code has no `MeshOverflow` condition: past the 16-bit ceiling
`add_face_indices` silently wraps (`as u16` cast plus `u16` addition)
instead of failing; at offset 65530 the BACK face indices wrap to small
values. -/
theorem add_face_indices_wraps_at_u16_ceiling :
    add_face_indices Faces.BACK 65530 = [65534, 65535, 1, 1, 65535, 0] := by decide

/-- C4: a generated cell is Air exactly when its height `y` exceeds the
column's height signal `sample(x/16, z/16) * CHUNK_HEIGHT`, and Solid
(Stone) exactly otherwise; the comparison is total over ℚ, so negative or
out-of-range signals are well-defined. -/
theorem chunk_new_block_type_threshold (osSample : OSampleFn) (x y z : Nat)
    (hx : x < CHUNK_WIDTH) (hy : y < CHUNK_HEIGHT) (hz : z < CHUNK_WIDTH) :
    (((Chunk.new osSample).blocks x y z).block_type = BlockType.AIR ↔
        (y : ℚ) > (NoiseGenerator.from_seed 1337).get osSample
          ((x : ℚ) / 16) ((z : ℚ) / 16) * (CHUNK_HEIGHT : ℚ)) ∧
      (((Chunk.new osSample).blocks x y z).block_type = BlockType.STONE ↔
        (y : ℚ) ≤ (NoiseGenerator.from_seed 1337).get osSample
          ((x : ℚ) / 16) ((z : ℚ) / 16) * (CHUNK_HEIGHT : ℚ)) := by
  constructor <;>
    · simp only [Chunk.new]
      split <;> rename_i hcmp <;> simp <;> [skip; skip] <;> first
        | exact hcmp
        | exact le_of_not_lt hcmp

theorem chunk_new_block_type_threshold_witness :
    (((Chunk.new constSample).blocks 0 0 0).block_type = BlockType.AIR ↔
        ((0 : Nat) : ℚ) > (NoiseGenerator.from_seed 1337).get constSample
          (((0 : Nat) : ℚ) / 16) (((0 : Nat) : ℚ) / 16) * (CHUNK_HEIGHT : ℚ)) ∧
      (((Chunk.new constSample).blocks 0 0 0).block_type = BlockType.STONE ↔
        ((0 : Nat) : ℚ) ≤ (NoiseGenerator.from_seed 1337).get constSample
          (((0 : Nat) : ℚ) / 16) (((0 : Nat) : ℚ) / 16) * (CHUNK_HEIGHT : ℚ)) :=
  chunk_new_block_type_threshold constSample 0 0 0 (by decide) (by decide) (by decide)

/-- C7: generated chunks are heightmaps: in any column, a solid cell has
only solid cells below it. -/
theorem chunk_new_heightmap_monotone (osSample : OSampleFn) (x z y1 y2 : Nat)
    (hx : x < CHUNK_WIDTH) (hz : z < CHUNK_WIDTH)
    (h12 : y1 < y2) (hy2 : y2 < CHUNK_HEIGHT)
    (hsolid : ((Chunk.new osSample).blocks x y2 z).block_type = BlockType.STONE) :
    ((Chunk.new osSample).blocks x y1 z).block_type = BlockType.STONE := by
  simp only [Chunk.new] at hsolid ⊢
  split at hsolid <;> rename_i hcmp
  · exact absurd hsolid (by simp)
  · have h2 : (y2 : ℚ) ≤ _ := le_of_not_lt hcmp
    have h1 : (y1 : ℚ) < (y2 : ℚ) := by exact_mod_cast h12
    rw [if_neg (not_lt.mpr (le_of_lt (lt_of_lt_of_le h1 h2)))]

theorem chunk_new_heightmap_monotone_witness :
    ((Chunk.new constSample).blocks 0 0 0).block_type = BlockType.STONE :=
  chunk_new_heightmap_monotone constSample 0 0 0 1 (by decide) (by decide)
    (by decide) (by decide)
    (by norm_num [Chunk.new, NoiseGenerator.get, constSample, CHUNK_HEIGHT])

lemma backVisible_iff (g : Grid) (x y z : Nat) (hz : z < CHUNK_WIDTH) :
    backVisible g x y z = true ↔ specFaceVisible g x y z Faces.BACK := by
  by_cases hb : z = CHUNK_WIDTH - 1
  · subst hb
    simp [backVisible, specFaceVisible, specNeighbor, CHUNK_WIDTH]
  · have h1 : z < CHUNK_WIDTH - 1 := by
      simp only [CHUNK_WIDTH] at hz hb ⊢; omega
    have h2 : z + 1 < CHUNK_WIDTH := by
      simp only [CHUNK_WIDTH] at h1 ⊢; omega
    simp [backVisible, specFaceVisible, specNeighbor, hb, h1, h2]

lemma frontVisible_iff (g : Grid) (x y z : Nat) :
    frontVisible g x y z = true ↔ specFaceVisible g x y z Faces.FRONT := by
  by_cases h0 : z = 0
  · subst h0
    simp [frontVisible, specFaceVisible, specNeighbor]
  · simp [frontVisible, specFaceVisible, specNeighbor, h0, Nat.pos_of_ne_zero h0]

lemma rightVisible_iff (g : Grid) (x y z : Nat) (hx : x < CHUNK_WIDTH) :
    rightVisible g x y z = true ↔ specFaceVisible g x y z Faces.RIGHT := by
  by_cases hb : x = CHUNK_WIDTH - 1
  · subst hb
    simp [rightVisible, specFaceVisible, specNeighbor, CHUNK_WIDTH]
  · have h1 : x < CHUNK_WIDTH - 1 := by
      simp only [CHUNK_WIDTH] at hx hb ⊢; omega
    have h2 : x + 1 < CHUNK_WIDTH := by
      simp only [CHUNK_WIDTH] at h1 ⊢; omega
    simp [rightVisible, specFaceVisible, specNeighbor, hb, h1, h2]

lemma leftVisible_iff (g : Grid) (x y z : Nat) :
    leftVisible g x y z = true ↔ specFaceVisible g x y z Faces.LEFT := by
  by_cases h0 : x = 0
  · subst h0
    simp [leftVisible, specFaceVisible, specNeighbor]
  · simp [leftVisible, specFaceVisible, specNeighbor, h0, Nat.pos_of_ne_zero h0]

lemma topVisible_iff (g : Grid) (x y z : Nat) (hy : y < CHUNK_HEIGHT) :
    topVisible g x y z = true ↔ specFaceVisible g x y z Faces.TOP := by
  by_cases hb : y = CHUNK_HEIGHT - 1
  · subst hb
    simp [topVisible, specFaceVisible, specNeighbor, CHUNK_HEIGHT]
  · have h1 : y < CHUNK_HEIGHT - 1 := by
      simp only [CHUNK_HEIGHT] at hy hb ⊢; omega
    have h2 : y + 1 < CHUNK_HEIGHT := by
      simp only [CHUNK_HEIGHT] at h1 ⊢; omega
    simp [topVisible, specFaceVisible, specNeighbor, hb, h1, h2]

lemma bottomVisible_iff (g : Grid) (x y z : Nat) :
    bottomVisible g x y z = true ↔ specFaceVisible g x y z Faces.BOTTOM := by
  by_cases h0 : y = 0
  · subst h0
    simp [bottomVisible, specFaceVisible, specNeighbor]
  · simp [bottomVisible, specFaceVisible, specNeighbor, h0, Nat.pos_of_ne_zero h0]

/-- C1: for an in-bounds solid block, `create_cube` emits exactly one
6-index group per direction whose code-side visibility test holds, and
that test holds iff the neighbour in that direction is outside the chunk
bounds or is Air. -/
theorem create_cube_emits_face_iff_neighbor_absent_or_air (g : Grid) (x y z : Nat)
    (hx : x < CHUNK_WIDTH) (hy : y < CHUNK_HEIGHT) (hz : z < CHUNK_WIDTH)
    (hsolid : (g x y z).block_type ≠ BlockType.AIR) (off : Nat) (d : Faces) :
    (create_cube g off x y z).2 = specFaceList g x y z off ∧
      (visibleDir g x y z d = true ↔ specFaceVisible g x y z d) := by
  refine ⟨by rw [create_cube_eq], ?_⟩
  cases d
  case FRONT => exact frontVisible_iff g x y z
  case BACK => exact backVisible_iff g x y z hz
  case TOP => exact topVisible_iff g x y z hy
  case BOTTOM => exact bottomVisible_iff g x y z
  case LEFT => exact leftVisible_iff g x y z
  case RIGHT => exact rightVisible_iff g x y z hx

/-- Grid with a single Stone block at the origin. -/
def gOne : Grid := fun x y z =>
  if x = 0 ∧ y = 0 ∧ z = 0 then Block.new
  else { is_active := false, block_type := BlockType.AIR }

theorem create_cube_face_rule_witness :
    (create_cube gOne 0 0 0 0).2 = specFaceList gOne 0 0 0 0 ∧
      (visibleDir gOne 0 0 0 Faces.BACK = true ↔ specFaceVisible gOne 0 0 0 Faces.BACK) :=
  create_cube_emits_face_iff_neighbor_absent_or_air gOne 0 0 0
    (by decide) (by decide) (by decide) (by decide) 0 Faces.BACK

/-- C5: a block whose six neighbours all exist in the grid and are solid
emits no vertices and no indices: `create_cube` returns two empty lists
and the mesh-building step leaves the accumulated mesh unchanged. -/
theorem enclosed_block_contributes_nothing (g : Grid) (x y z : Nat)
    (hx1 : 0 < x) (hx2 : x < CHUNK_WIDTH - 1)
    (hy1 : 0 < y) (hy2 : y < CHUNK_HEIGHT - 1)
    (hz1 : 0 < z) (hz2 : z < CHUNK_WIDTH - 1)
    (hpx : (g (x + 1) y z).block_type ≠ BlockType.AIR)
    (hmx : (g (x - 1) y z).block_type ≠ BlockType.AIR)
    (hpy : (g x (y + 1) z).block_type ≠ BlockType.AIR)
    (hmy : (g x (y - 1) z).block_type ≠ BlockType.AIR)
    (hpz : (g x y (z + 1)).block_type ≠ BlockType.AIR)
    (hmz : (g x y (z - 1)).block_type ≠ BlockType.AIR)
    (acc : List ColorVertex × List Nat) :
    create_cube g acc.1.length x y z = ([], []) ∧ meshStep g acc (x, y, z) = acc := by
  have hb : backVisible g x y z = false := by
    simp [backVisible, Nat.ne_of_lt hz2, hpz]
  have hf : frontVisible g x y z = false := by
    simp [frontVisible, Nat.pos_iff_ne_zero.mp hz1, hmz]
  have hr : rightVisible g x y z = false := by
    simp [rightVisible, Nat.ne_of_lt hx2, hpx]
  have hl : leftVisible g x y z = false := by
    simp [leftVisible, Nat.pos_iff_ne_zero.mp hx1, hmx]
  have ht : topVisible g x y z = false := by
    simp [topVisible, Nat.ne_of_lt hy2, hpy]
  have hbo : bottomVisible g x y z = false := by
    simp [bottomVisible, Nat.pos_iff_ne_zero.mp hy1, hmy]
  have hcube : create_cube g acc.1.length x y z = ([], []) := by
    simp [create_cube, hb, hf, hr, hl, ht, hbo]
  refine ⟨hcube, ?_⟩
  by_cases hs : (g x y z).block_type = BlockType.AIR
  · simp [meshStep, hs]
  · simp [meshStep, hs, hcube]

/-- Grid that is Stone everywhere. -/
def gStone : Grid := fun _ _ _ => { is_active := false, block_type := BlockType.STONE }

theorem enclosed_block_contributes_nothing_witness :
    create_cube gStone 0 1 1 1 = ([], []) ∧
      meshStep gStone ([], []) (1, 1, 1) = ([], []) :=
  enclosed_block_contributes_nothing gStone 1 1 1
    (by decide) (by decide) (by decide) (by decide) (by decide) (by decide)
    (by decide) (by decide) (by decide) (by decide) (by decide) (by decide)
    (([], []) : List ColorVertex × List Nat)

/-- Agreement of two grids on the `block_type` of every in-bounds cell. -/
def BlockTypeAgree (g1 g2 : Grid) : Prop :=
  ∀ x y z, x < CHUNK_WIDTH → y < CHUNK_HEIGHT → z < CHUNK_WIDTH →
    (g1 x y z).block_type = (g2 x y z).block_type

lemma create_cube_congr (g1 g2 : Grid) (off x y z : Nat)
    (hx : x < CHUNK_WIDTH) (hy : y < CHUNK_HEIGHT) (hz : z < CHUNK_WIDTH)
    (h : BlockTypeAgree g1 g2) :
    create_cube g1 off x y z = create_cube g2 off x y z := by
  have hb : backVisible g1 x y z = backVisible g2 x y z := by
    by_cases h15 : z = CHUNK_WIDTH - 1
    · simp [backVisible, h15]
    · have hz1 : z + 1 < CHUNK_WIDTH := by
        simp only [CHUNK_WIDTH] at hz h15 ⊢; omega
      simp [backVisible, h x y (z + 1) hx hy hz1]
  have hf : frontVisible g1 x y z = frontVisible g2 x y z := by
    by_cases h0 : z = 0
    · simp [frontVisible, h0]
    · have hz1 : z - 1 < CHUNK_WIDTH := lt_of_le_of_lt (Nat.sub_le z 1) hz
      simp [frontVisible, h x y (z - 1) hx hy hz1]
  have hr : rightVisible g1 x y z = rightVisible g2 x y z := by
    by_cases h15 : x = CHUNK_WIDTH - 1
    · simp [rightVisible, h15]
    · have hx1 : x + 1 < CHUNK_WIDTH := by
        simp only [CHUNK_WIDTH] at hx h15 ⊢; omega
      simp [rightVisible, h (x + 1) y z hx1 hy hz]
  have hl : leftVisible g1 x y z = leftVisible g2 x y z := by
    by_cases h0 : x = 0
    · simp [leftVisible, h0]
    · have hx1 : x - 1 < CHUNK_WIDTH := lt_of_le_of_lt (Nat.sub_le x 1) hx
      simp [leftVisible, h (x - 1) y z hx1 hy hz]
  have ht : topVisible g1 x y z = topVisible g2 x y z := by
    by_cases h31 : y = CHUNK_HEIGHT - 1
    · simp [topVisible, h31]
    · have hy1 : y + 1 < CHUNK_HEIGHT := by
        simp only [CHUNK_HEIGHT] at hy h31 ⊢; omega
      simp [topVisible, h x (y + 1) z hx hy1 hz]
  have hbo : bottomVisible g1 x y z = bottomVisible g2 x y z := by
    by_cases h0 : y = 0
    · simp [bottomVisible, h0]
    · have hy1 : y - 1 < CHUNK_HEIGHT := lt_of_le_of_lt (Nat.sub_le y 1) hy
      simp [bottomVisible, h x (y - 1) z hx hy1 hz]
  simp only [create_cube, hb, hf, hr, hl, ht, hbo]

lemma meshStep_congr (g1 g2 : Grid) (h : BlockTypeAgree g1 g2)
    (acc : List ColorVertex × List Nat) (c : Nat × Nat × Nat)
    (hx : c.1 < CHUNK_WIDTH) (hy : c.2.1 < CHUNK_HEIGHT) (hz : c.2.2 < CHUNK_WIDTH) :
    meshStep g1 acc c = meshStep g2 acc c := by
  have hbt := h c.1 c.2.1 c.2.2 hx hy hz
  by_cases hs : (g1 c.1 c.2.1 c.2.2).block_type = BlockType.AIR
  · have hs2 : (g2 c.1 c.2.1 c.2.2).block_type = BlockType.AIR := hbt.symm.trans hs
    simp [meshStep, hs, hs2]
  · have hs2 : (g2 c.1 c.2.1 c.2.2).block_type ≠ BlockType.AIR :=
      fun hh => hs (hbt.trans hh)
    simp [meshStep, hs, hs2, create_cube_congr g1 g2 acc.1.length c.1 c.2.1 c.2.2 hx hy hz h]

lemma foldl_meshStep_congr (g1 g2 : Grid) (h : BlockTypeAgree g1 g2) :
    ∀ cs : List (Nat × Nat × Nat),
      (∀ c ∈ cs, c.1 < CHUNK_WIDTH ∧ c.2.1 < CHUNK_HEIGHT ∧ c.2.2 < CHUNK_WIDTH) →
      ∀ acc, cs.foldl (meshStep g1) acc = cs.foldl (meshStep g2) acc := by
  intro cs
  induction cs with
  | nil => intro _ acc; rfl
  | cons c cs ih =>
    intro hcs acc
    have hc := hcs c (by simp)
    simp only [List.foldl_cons]
    rw [meshStep_congr g1 g2 h acc c hc.1 hc.2.1 hc.2.2]
    exact ih (fun e he => hcs e (by simp [he])) _

/-- C8: the mesh depends only on the `block_type` field of the cells: two
grids that agree on every in-bounds cell's `block_type` (but may differ
arbitrarily in `is_active`) produce identical vertex and index
sequences. -/
theorem create_mesh_ignores_is_active (g1 g2 : Grid) (h : BlockTypeAgree g1 g2) :
    create_mesh g1 = create_mesh g2 := by
  unfold create_mesh
  exact foldl_meshStep_congr g1 g2 h chunkCoords (fun c hc => mem_chunkCoords hc) ([], [])

/-- Stone-everywhere grid with all cells inactive. -/
def gA : Grid := fun _ _ _ => { is_active := false, block_type := BlockType.STONE }

/-- Stone-everywhere grid with all cells active. -/
def gB : Grid := fun _ _ _ => { is_active := true, block_type := BlockType.STONE }

theorem create_mesh_ignores_is_active_witness : create_mesh gA = create_mesh gB :=
  create_mesh_ignores_is_active gA gB (fun _ _ _ _ _ _ => rfl)

lemma flatMap_add_face_length (off : Nat) (ds : List Faces) :
    (ds.flatMap (fun d => add_face_indices d off)).length = 6 * ds.length := by
  induction ds with
  | nil => rfl
  | cons d ds ih =>
    simp only [List.flatMap_cons, List.length_append, List.length_cons, ih,
      add_face_indices_length]
    omega

lemma specFaceList_length (g : Grid) (x y z off : Nat) :
    (specFaceList g x y z off).length = 6 * numFaces g x y z :=
  flatMap_add_face_length off _

lemma specFaceList_eq_nil (g : Grid) (x y z off : Nat)
    (h0 : numFaces g x y z = 0) : specFaceList g x y z off = [] := by
  have h := specFaceList_length g x y z off
  rw [h0, Nat.mul_zero] at h
  exact List.length_eq_zero.mp h

lemma foldl_meshStep_snd_length (g : Grid) (cs : List (Nat × Nat × Nat)) :
    ∀ acc : List ColorVertex × List Nat,
      (cs.foldl (meshStep g) acc).2.length =
        acc.2.length + 6 * (cs.map (blockFaces g)).sum := by
  induction cs with
  | nil => intro acc; simp
  | cons c cs ih =>
    intro acc
    simp only [List.foldl_cons, List.map_cons, List.sum_cons]
    rw [ih]
    have hstep : (meshStep g acc c).2.length = acc.2.length + 6 * blockFaces g c := by
      by_cases hs : (g c.1 c.2.1 c.2.2).block_type = BlockType.AIR
      · simp [meshStep, blockFaces, hs]
      · simp [meshStep, blockFaces, hs, create_cube_eq, specFaceList_length]
    rw [hstep]
    omega

/-- C6: each face is exactly 6 indices; a block with at least one visible
face contributes exactly its fixed 8-corner vertex list and one offset
6-index group per visible face (and a block with none contributes no
vertices); the total index count is 6 times the number of emitted faces,
hence divisible by 3. -/
theorem face_and_vertex_counts (g : Grid) (off x y z : Nat) (d : Faces) :
    (add_face_indices d off).length = 6 ∧
      (create_cube g off x y z).1.length = (if numFaces g x y z = 0 then 0 else 8) ∧
      (create_cube g off x y z).2 = specFaceList g x y z off ∧
      (create_cube g off x y z).2.length = 6 * numFaces g x y z ∧
      (create_mesh g).2.length = 6 * totalFaces g ∧
      (create_mesh g).2.length % 3 = 0 := by
  have h4 : (create_mesh g).2.length = 6 * totalFaces g := by
    unfold create_mesh totalFaces
    simpa using foldl_meshStep_snd_length g chunkCoords ([], [])
  refine ⟨add_face_indices_length d off, ?_, by rw [create_cube_eq], ?_, h4, ?_⟩
  · rw [create_cube_eq]
    split <;> simp [cubeVerts_length]
  · rw [create_cube_eq]
    exact specFaceList_length g x y z off
  · rw [h4]; omega

lemma foldl_meshStep_inv (g : Grid) (cs : List (Nat × Nat × Nat)) :
    ∀ acc : List ColorVertex × List Nat,
      (∀ i ∈ acc.2, i < acc.1.length) →
      acc.1.length + 8 * cs.length ≤ U16_MOD →
      (∀ i ∈ (cs.foldl (meshStep g) acc).2, i < (cs.foldl (meshStep g) acc).1.length) ∧
        (cs.foldl (meshStep g) acc).1.length ≤ acc.1.length + 8 * cs.length := by
  induction cs with
  | nil =>
    intro acc hv _
    exact ⟨hv, Nat.le_refl _⟩
  | cons c cs ih =>
    intro acc hv hbud
    simp only [List.length_cons] at hbud
    have hoff : acc.1.length + 8 ≤ U16_MOD := by omega
    have hstep : (∀ i ∈ (meshStep g acc c).2, i < (meshStep g acc c).1.length) ∧
        (meshStep g acc c).1.length ≤ acc.1.length + 8 := by
      by_cases hs : (g c.1 c.2.1 c.2.2).block_type = BlockType.AIR
      · simp only [meshStep, hs, ne_eq, not_true_eq_false, if_false]
        exact ⟨hv, Nat.le_add_right _ _⟩
      · by_cases h0 : numFaces g c.1 c.2.1 c.2.2 = 0
        · simp only [meshStep, hs, ne_eq, not_false_eq_true, if_true, create_cube_eq,
            h0, if_pos rfl, specFaceList_eq_nil _ _ _ _ _ h0, List.append_nil]
          exact ⟨hv, Nat.le_add_right _ _⟩
        · simp only [meshStep, hs, ne_eq, not_false_eq_true, if_true, create_cube_eq,
            if_neg h0]
          constructor
          · intro i hi
            simp only [List.length_append, cubeVerts_length]
            rcases List.mem_append.mp hi with hold | hnew
            · exact lt_of_lt_of_le (hv i hold) (Nat.le_add_right _ _)
            · rcases List.mem_flatMap.mp hnew with ⟨e, _, hie⟩
              exact mem_add_face_indices_lt e acc.1.length i hoff hie
          · simp [cubeVerts_length]
    have hnext : (meshStep g acc c).1.length + 8 * cs.length ≤ U16_MOD := by
      have := hstep.2; omega
    have hres := ih (meshStep g acc c) hstep.1 hnext
    simp only [List.foldl_cons, List.length_cons]
    refine ⟨hres.1, ?_⟩
    have h1 := hres.2
    have h2 := hstep.2
    omega

/-- C2: every index value in the mesh returned by `create_mesh` is
strictly below the number of vertices, and the vertex count never
exceeds the 16-bit index space of 65536. -/
theorem create_mesh_indices_lt_vertices_and_le_u16 (g : Grid) :
    (create_mesh g).2.all (fun i => decide (i < (create_mesh g).1.length)) = true ∧
      (create_mesh g).1.length ≤ 65536 := by
  have hbud : (([], []) : List ColorVertex × List Nat).1.length + 8 * chunkCoords.length ≤ U16_MOD := by
    rw [chunkCoords_length]
    simp [U16_MOD]
  have h := foldl_meshStep_inv g chunkCoords ([], []) (by simp) hbud
  constructor
  · exact List.all_eq_true.mpr (fun i hi => decide_eq_true (h.1 i hi))
  · have h2 := h.2
    rw [chunkCoords_length] at h2
    simpa [U16_MOD] using h2

end Rover
